import Mathlib

/-!
Verification of the ledger/worksheet core of the Business-Tracker app
(src/app.py): header normalization, dynamic row append, locate-and-delete,
and the sale/purchase stock updates, shallowly embedded over explicit
worksheet states.

Modelling conventions:
* Spreadsheet cells are strings, Python ints, or Python floats; floats are
  modelled as exact rationals (binary floating point is not modelled; no
  verified statement below compares non-integral float cells as text).
* Python str.strip / str.lower / str.title are embedded for ASCII strings,
  which covers every header and key the program uses.
* The worksheet API (get_all_records, append_row, update_cell, delete_rows)
  is modelled as pure state passing over a headers + rows structure.
-/

/-- Python whitespace characters recognized by str.strip(). -/
def pyIsSpace (c : Char) : Bool :=
  c = ' ' || c = '\t' || c = '\n' || c = '\r' || c = '\x0b' || c = '\x0c'

/-- Python str.strip(): drop leading and trailing whitespace. -/
def pyStrip (s : String) : String :=
  String.mk (((s.data.dropWhile pyIsSpace).reverse.dropWhile pyIsSpace).reverse)

/-- ASCII lower-casing of one character (Python str.lower on ASCII input). -/
def asciiLower (c : Char) : Char :=
  if 'A' ≤ c ∧ c ≤ 'Z' then Char.ofNat (c.toNat + 32) else c

/-- ASCII upper-casing of one character. -/
def asciiUpper (c : Char) : Char :=
  if 'a' ≤ c ∧ c ≤ 'z' then Char.ofNat (c.toNat - 32) else c

/-- Is the character an ASCII letter (a cased character, for title-casing)? -/
def isAsciiAlpha (c : Char) : Bool :=
  ('a' ≤ c ∧ c ≤ 'z') || ('A' ≤ c ∧ c ≤ 'Z')

/-- Python str.lower() on ASCII strings. -/
def pyLower (s : String) : String :=
  String.mk (s.data.map asciiLower)

/-- Helper for str.title(): the Bool records whether the previous character
was a cased (letter) character. -/
def pyTitleAux : Bool → List Char → List Char
  | _, [] => []
  | prev, c :: cs =>
    (if isAsciiAlpha c then (if prev then asciiLower c else asciiUpper c) else c)
      :: pyTitleAux (isAsciiAlpha c) cs

/-- Python str.title() on ASCII strings: the first letter of every maximal
letter run is upper-cased, the rest lower-cased. -/
def pyTitle (s : String) : String :=
  String.mk (pyTitleAux false s.data)

/-- Header normalization performed by get_df (src/app.py line 62):
c.strip().title() applied to every column name. -/
def normalizeHeader (h : String) : String :=
  pyTitle (pyStrip h)

/-- A spreadsheet cell value as returned by get_all_records: a string, a
Python int, or a Python float (modelled as an exact rational). -/
inductive Cell where
  | str (s : String)
  | int (n : ℤ)
  | rat (q : ℚ)
deriving DecidableEq

/-- Python str() of a cell. Integral floats print as "n.0" like Python;
non-integral float repr is approximated by the exact fraction (no verified
statement compares such a cell as text). -/
def Cell.pyStr : Cell → String
  | .str s => s
  | .int n => toString n
  | .rat q => if q.den = 1 then toString q.num ++ ".0" else toString q

/-- Python int() of a cell: ints pass through, strings are parsed (optional
surrounding whitespace and sign, then decimal digits), floats truncate
toward zero. none models the ValueError / TypeError path. -/
def digitsToNat : List Char → Option ℕ
  | [] => none
  | cs =>
    if cs.all Char.isDigit then
      some (cs.foldl (fun n c => 10 * n + (c.toNat - 48)) 0)
    else none

def pyParseInt (s : String) : Option ℤ :=
  match (pyStrip s).data with
  | '+' :: rest => (digitsToNat rest).map Int.ofNat
  | '-' :: rest => (digitsToNat rest).map (fun n => -(n : ℤ))
  | rest => (digitsToNat rest).map Int.ofNat

def Cell.toInt : Cell → Option ℤ
  | .int n => some n
  | .str s => pyParseInt s
  | .rat q => some (Int.tdiv q.num q.den)

/-- pandas elementwise comparison of a cell against a Python string:
only a string cell can compare equal. -/
def cellEqStr (c : Cell) (s : String) : Bool :=
  match c with
  | .str t => t = s
  | _ => false

/-- Python round to banker's rounding (round half to even) of a rational,
to an integer. -/
def roundHalfEven (q : ℚ) : ℤ :=
  if q - Rat.floor q < 1 / 2 then Rat.floor q
  else if (1 : ℚ) / 2 < q - Rat.floor q then Rat.floor q + 1
  else if Rat.floor q % 2 = 0 then Rat.floor q else Rat.floor q + 1

/-- Python round(x, 2) under exact rational semantics. -/
def pyRound2 (q : ℚ) : ℚ :=
  (roundHalfEven (q * 100) : ℚ) / 100

/-- A worksheet: the header row plus the data rows, as gspread exposes it. -/
structure Worksheet where
  headers : List String
  rows : List (List Cell)
deriving DecidableEq

/-- The worksheet's columns as seen through get_df: strip().title() of each
header (src/app.py lines 57-63 and 95). -/
def normHeaders (ws : Worksheet) : List String :=
  ws.headers.map normalizeHeader

/-- Cell of a data row at a column position; a missing position reads as the
empty string (the row.get(k, "") default). -/
def getCell (r : List Cell) (i : ℕ) : Cell :=
  r.getD i (Cell.str "")

/-- Positional update of a list (update_cell on one row). Out-of-range
indices leave the list unchanged. -/
def setAt : List α → ℕ → α → List α
  | [], _, _ => []
  | _ :: xs, 0, v => v :: xs
  | x :: xs, n + 1, v => x :: setAt xs n v

/-- Remove the element at a position (ws.delete_rows on the data rows). -/
def eraseAt : List α → ℕ → List α
  | [], _ => []
  | _ :: xs, 0 => xs
  | x :: xs, n + 1 => x :: eraseAt xs n

/-- update_cell: write one cell of one data row. -/
def wsSetCell (ws : Worksheet) (ri ci : ℕ) (v : Cell) : Worksheet :=
  { ws with rows := setAt ws.rows ri (setAt (ws.rows.getD ri []) ci v) }

/-- First position at or after the start index whose element satisfies the
predicate: the scan pattern of pandas get_loc / index[mask][0] / iterrows. -/
def scanIdx (p : α → Bool) : List α → ℕ → Option ℕ
  | [], _ => none
  | x :: xs, i => if p x then some i else scanIdx p xs (i + 1)

/-- Lookup value for one (stripped) header inside the data_dict of
append_row_dynamic (src/app.py lines 72-80): the first key equal to the
header under strip().lower() comparison supplies the value, otherwise the
empty string is emitted. -/
def matchValue (hdr : String) (data : List (String × Cell)) : Cell :=
  match data.find? (fun kv => pyLower (pyStrip kv.1) = pyLower hdr) with
  | some kv => kv.2
  | none => Cell.str ""

/-- The row built by append_row_dynamic (src/app.py lines 65-82): headers are
stripped, each column takes the case-insensitively matching field's value or
the empty string, and the row is truncated to the header length. -/
def build_row (headers : List String) (data : List (String × Cell)) : List Cell :=
  ((headers.map pyStrip).foldl (fun row hdr => row ++ [matchValue hdr data]) []).take
    (headers.map pyStrip).length

/-- append_row_dynamic: append the built row to the worksheet. -/
def append_row_dynamic (ws : Worksheet) (data : List (String × Cell)) : Worksheet :=
  { ws with rows := ws.rows ++ [build_row ws.headers data] }

/-- dict assignment match[h] = v on an association list: replace in place or
append at the end, as a Python dict does. -/
def assocSet : List (String × Cell) → String → Cell → List (String × Cell)
  | [], k, v => [(k, v)]
  | (k', v') :: rest, k, v =>
    if k' = k then (k, v) :: rest else (k', v') :: assocSet rest k v

/-- Normalization of the match keys in find_and_delete_row (src/app.py lines
100-106): each key keeps only its first header spelled the same under
strip().lower(); keys matching no header are dropped. -/
def buildMatch (cols : List String) (m : List (String × Cell)) : List (String × Cell) :=
  m.foldl
    (fun acc kv =>
      match cols.find? (fun h => pyLower (pyStrip kv.1) = pyLower h) with
      | some h => assocSet acc h kv.2
      | none => acc)
    []

/-- The inner loop of find_and_delete_row (src/app.py lines 110-116): every
normalized criterion must equal the row's cell under str().strip()
comparison (empty-valued criteria included). -/
def rowMatches (cols : List String) (mtch : List (String × Cell)) (row : List Cell) : Bool :=
  mtch.all fun kv =>
    (match scanIdx (fun h => h = kv.1) cols 0 with
      | some i => pyStrip (getCell row i).pyStr
      | none => pyStrip (Cell.str "").pyStr)
      = pyStrip kv.2.pyStr

/-- Position of the first data row matching all normalized criteria, or none
when the sheet is empty or nothing matches (src/app.py lines 89-125). -/
def locateRow (ws : Worksheet) (m : List (String × Cell)) : Option ℕ :=
  if ws.rows.isEmpty then none
  else scanIdx (rowMatches (normHeaders ws) (buildMatch (normHeaders ws) m)) ws.rows 0

/-- find_and_delete_row: locate the first matching data row and delete it,
reporting success; on no match (or empty sheet) report failure and leave the
worksheet unchanged. -/
def find_and_delete_row (ws : Worksheet) (m : List (String × Cell)) : Bool × Worksheet :=
  match locateRow ws m with
  | some i => (true, { ws with rows := eraseAt ws.rows i })
  | none => (false, ws)

/-- The item column chosen by the Record Sale page (src/app.py line 213):
"Item Name" when present, otherwise the first column. -/
def saleItemCol (cols : List String) : String :=
  if cols.contains "Item Name" then "Item Name" else cols.headD ""

/-- The inventory stock update of the Record Sale handler (src/app.py lines
244-253): when the sheet is non-empty and has a Stock column, the first row
whose item column equals the sold item has its stock set to
max(0, stock - qty); every failure inside the try block (item not found,
unparseable stock) is swallowed and leaves the sheet unchanged. -/
def applySaleStock (inv : Worksheet) (item : String) (qty : ℤ) : Worksheet :=
  if inv.rows.isEmpty then inv
  else if (normHeaders inv).contains "Stock" then
    match scanIdx (fun h => h = saleItemCol (normHeaders inv)) (normHeaders inv) 0,
        scanIdx (fun h => h = "Stock") (normHeaders inv) 0 with
    | some ici, some sci =>
      match scanIdx (fun r => cellEqStr (getCell r ici) item) inv.rows 0 with
      | some ri =>
        match Cell.toInt (getCell (inv.rows.getD ri []) sci) with
        | some s => wsSetCell inv ri sci (Cell.int (max 0 (s - qty)))
        | none => inv
      | none => inv
    | _, _ => inv
  else inv

/-- The guard of the Record Purchase handler's existing-item branch
(src/app.py line 311): the inventory is non-empty, has an "Item Name"
column, and the purchased item appears in that column. -/
def purchaseItemExists (inv : Worksheet) (item : String) : Bool :=
  !inv.rows.isEmpty && (normHeaders inv).contains "Item Name" &&
    (match scanIdx (fun h => h = "Item Name") (normHeaders inv) 0 with
      | some ici => inv.rows.any (fun r => cellEqStr (getCell r ici) item)
      | none => false)

/-- The inventory update of the Record Purchase handler (src/app.py lines
310-326): an existing item has only its Stock cell increased by the
purchased quantity (when a Stock column exists and the stock parses as an
int; any try-block failure leaves the sheet unchanged); a new item is
appended positionally as [Item Name, Buy Price, Sell Price, Stock] with
sell price round(buyPrice * 1.2, 2). -/
def applyPurchase (inv : Worksheet) (item : String) (qty : ℤ) (buyPrice : ℚ) : Worksheet :=
  if purchaseItemExists inv item then
    match scanIdx (fun h => h = "Item Name") (normHeaders inv) 0 with
    | some ici =>
      match scanIdx (fun r => cellEqStr (getCell r ici) item) inv.rows 0 with
      | some ri =>
        if (normHeaders inv).contains "Stock" then
          match scanIdx (fun h => h = "Stock") (normHeaders inv) 0 with
          | some sci =>
            match Cell.toInt (getCell (inv.rows.getD ri []) sci) with
            | some s => wsSetCell inv ri sci (Cell.int (s + qty))
            | none => inv
          | none => inv
        else inv
      | none => inv
    | none => inv
  else
    { inv with
      rows := inv.rows ++
        [[Cell.str item, Cell.rat buyPrice, Cell.rat (pyRound2 (buyPrice * (6 / 5))),
          Cell.int qty]] }

/-- The whole mutable state the handlers touch: the three worksheets. -/
structure AppState where
  inventory : Worksheet
  sales : Worksheet
  purchases : Worksheet
deriving DecidableEq

/-- The Record Sale button handler (src/app.py lines 236-254): append the
sale row to the Sales sheet, then apply the stock update to the Inventory
sheet; the handler reports success unconditionally. -/
def recordSale (st : AppState) (saleDate item : String) (qty : ℤ) (price : Cell) : AppState :=
  { st with
    sales := append_row_dynamic st.sales
      [("Date", Cell.str saleDate), ("Item Name", Cell.str item),
        ("Units Sold", Cell.int qty), ("Selling Price", price)],
    inventory := applySaleStock st.inventory item qty }

/-- The Record Purchase button handler (src/app.py lines 299-327): append
the purchase row to the Purchases sheet, then apply the inventory update. -/
def recordPurchase (st : AppState) (purchaseDate item : String) (qty : ℤ) (buyPrice : ℚ) :
    AppState :=
  { st with
    purchases := append_row_dynamic st.purchases
      [("Date", Cell.str purchaseDate), ("Item Name", Cell.str item),
        ("Units Bought", Cell.int qty), ("Buying Price", Cell.rat buyPrice)],
    inventory := applyPurchase st.inventory item qty buyPrice }

/-- Field read row.get(name, "") from a normalized data-frame row. -/
def dfRowGet (cols : List String) (row : List Cell) (name : String) : Cell :=
  match scanIdx (fun h => h = name) cols 0 with
  | some i => getCell row i
  | none => Cell.str ""

/-- The match dict {Date, Item Name, Units Sold} the Delete Selected Sale
handler rebuilds from the chosen row (src/app.py lines 272-275). -/
def saleMatchDict (ws : Worksheet) (idx : ℕ) : List (String × Cell) :=
  [("Date", dfRowGet (normHeaders ws) (ws.rows.getD idx []) "Date"),
    ("Item Name", dfRowGet (normHeaders ws) (ws.rows.getD idx []) "Item Name"),
    ("Units Sold", dfRowGet (normHeaders ws) (ws.rows.getD idx []) "Units Sold")]

/-- The Delete Selected Sale handler (src/app.py lines 270-282): rebuild the
match dict from the chosen row and run find_and_delete_row on the Sales
sheet only. -/
def deleteSaleRecord (st : AppState) (idx : ℕ) : Bool × AppState :=
  ((find_and_delete_row st.sales (saleMatchDict st.sales idx)).1,
    { st with sales := (find_and_delete_row st.sales (saleMatchDict st.sales idx)).2 })

/-- The match dict {Date, Item Name, Units Bought} of the Delete Selected
Purchase handler (src/app.py line 346). -/
def purchaseMatchDict (ws : Worksheet) (idx : ℕ) : List (String × Cell) :=
  [("Date", dfRowGet (normHeaders ws) (ws.rows.getD idx []) "Date"),
    ("Item Name", dfRowGet (normHeaders ws) (ws.rows.getD idx []) "Item Name"),
    ("Units Bought", dfRowGet (normHeaders ws) (ws.rows.getD idx []) "Units Bought")]

/-- The Delete Selected Purchase handler (src/app.py lines 342-353): the
same mechanism against the Purchases sheet. -/
def deletePurchaseRecord (st : AppState) (idx : ℕ) : Bool × AppState :=
  ((find_and_delete_row st.purchases (purchaseMatchDict st.purchases idx)).1,
    { st with purchases := (find_and_delete_row st.purchases (purchaseMatchDict st.purchases idx)).2 })

/-- Inventory of the Pen scenario: one item, Pen, with stock 10. -/
def penInventory : Worksheet :=
  ⟨["Item Name", "Buy Price", "Sell Price", "Stock"],
    [[Cell.str "Pen", Cell.int 5, Cell.int 6, Cell.int 10]]⟩

/-- Initial state of the Pen scenario: empty Sales and Purchases sheets. -/
def penStart : AppState :=
  ⟨penInventory,
    ⟨["Date", "Item Name", "Units Sold", "Selling Price"], []⟩,
    ⟨["Date", "Item Name", "Units Bought", "Buying Price"], []⟩⟩

/-- The Pen scenario after recording the sale of 3 Pens. -/
def penAfterSale : AppState :=
  recordSale penStart "2024-01-01" "Pen" 3 (Cell.int 6)

/-- The Pen scenario after deleting that sale through the delete handler. -/
def penAfterDelete : AppState :=
  (deleteSaleRecord penAfterSale 0).2

/-- The stock cell of the first inventory row (column 3 of the scenario
schema Item Name, Buy Price, Sell Price, Stock). -/
def invStockCell (st : AppState) : Cell :=
  getCell (st.inventory.rows.getD 0 []) 3

/-- A state with one sale row and one purchase row already recorded, used to
exercise both delete handlers. -/
def bothState : AppState :=
  recordPurchase penAfterSale "2024-01-02" "Pen" 4 5

/-- An inventory sheet with the standard schema and no items yet. -/
def emptyInventory : Worksheet :=
  ⟨["Item Name", "Buy Price", "Sell Price", "Stock"], []⟩

/-- A sales-like worksheet holding one recorded transaction, used to probe
the locate contract. -/
def oneSaleSheet : Worksheet :=
  ⟨["Date", "Item Name"], [[Cell.str "2024-01-01", Cell.str "Pen"]]⟩

/-- Criteria for oneSaleSheet with one empty-valued entry: the Date
criterion is empty, the Item Name criterion matches the stored row. -/
def emptyDateCriteria : List (String × Cell) :=
  [("Item Name", Cell.str "Pen"), ("Date", Cell.str "")]

/-- A two-row worksheet used to probe vacuous matching. -/
def twoRowSheet : Worksheet :=
  ⟨["Date", "Item"],
    [[Cell.str "2024-01-01", Cell.str "Pen"], [Cell.str "2024-01-02", Cell.str "Ink"]]⟩

/-- Modelled from the spec: the match predicate stated by the claim and by
find_and_delete_row's own docstring ("matches all non-empty values in
match_dict") — a criterion whose value is empty after str().strip() is
ignored, every other criterion must equal the row's field value under
string-trimmed comparison. -/
def rowMatchesNonEmpty (cols : List String) (mtch : List (String × Cell)) (row : List Cell) : Bool :=
  mtch.all fun kv =>
    pyStrip kv.2.pyStr = "" ||
      ((match scanIdx (fun h => h = kv.1) cols 0 with
        | some i => pyStrip (getCell row i).pyStr
        | none => pyStrip (Cell.str "").pyStr)
        = pyStrip kv.2.pyStr)


/-! ### Helper lemmas -/

theorem scanIdx_none_of_all {α : Type _} (p : α → Bool) (l : List α) :
    ∀ i, (∀ a ∈ l, p a = false) → scanIdx p l i = none := by
  induction l with
  | nil => intro i _; rfl
  | cons x xs ih =>
    intro i h
    have hx : p x = false := h x (by simp)
    have hxs := ih (i + 1) (fun a ha => h a (by simp [ha]))
    simp [scanIdx, hx, hxs]

theorem scanIdx_some_bound {α : Type _} (p : α → Bool) (l : List α) :
    ∀ i k, scanIdx p l i = some k → i ≤ k ∧ k < i + l.length := by
  induction l with
  | nil => intro i k h; simp [scanIdx] at h
  | cons x xs ih =>
    intro i k h
    simp only [scanIdx] at h
    by_cases hx : p x = true
    · rw [hx] at h
      simp at h
      subst h
      exact ⟨le_refl _, by simp only [List.length_cons]; omega⟩
    · have hx' : p x = false := by simpa using hx
      rw [hx'] at h
      simp at h
      obtain ⟨h1, h2⟩ := ih (i + 1) k h
      exact ⟨by omega, by simp only [List.length_cons]; omega⟩

theorem length_setAt {α : Type _} (l : List α) (v : α) :
    ∀ i, (setAt l i v).length = l.length := by
  induction l with
  | nil => intro i; rfl
  | cons x xs ih =>
    intro i
    cases i with
    | zero => rfl
    | succ n => simp [setAt, ih n]

theorem getD_setAt_self {α : Type _} (l : List α) (v d : α) :
    ∀ i, i < l.length → (setAt l i v).getD i d = v := by
  induction l with
  | nil => intro i h; simp at h
  | cons x xs ih =>
    intro i h
    cases i with
    | zero => rfl
    | succ n =>
      simp only [setAt, List.getD_cons_succ]
      exact ih n (by simpa using h)

theorem getD_setAt_ne {α : Type _} (l : List α) (v d : α) :
    ∀ i j, i ≠ j → (setAt l i v).getD j d = l.getD j d := by
  induction l with
  | nil => intro i j _; simp [setAt]
  | cons x xs ih =>
    intro i j hij
    cases i with
    | zero =>
      cases j with
      | zero => exact absurd rfl hij
      | succ m => simp [setAt, List.getD_cons_succ]
    | succ n =>
      cases j with
      | zero => simp [setAt]
      | succ m =>
        simp only [setAt, List.getD_cons_succ]
        exact ih n m (by omega)

theorem length_eraseAt {α : Type _} (l : List α) :
    ∀ i, i < l.length → (eraseAt l i).length + 1 = l.length := by
  induction l with
  | nil => intro i h; simp at h
  | cons x xs ih =>
    intro i h
    cases i with
    | zero => simp [eraseAt]
    | succ n =>
      have := ih n (by simpa using h)
      simp only [eraseAt, List.length_cons]
      omega

theorem getD_mem_or {α : Type _} (l : List α) (d : α) :
    ∀ i, l.getD i d = d ∨ l.getD i d ∈ l := by
  induction l with
  | nil => intro i; left; rfl
  | cons x xs ih =>
    intro i
    cases i with
    | zero => right; simp
    | succ n =>
      rcases ih n with h | h
      · left; simpa [List.getD_cons_succ] using h
      · right
        rw [List.getD_cons_succ]
        exact List.mem_cons_of_mem x h

theorem foldl_snoc_map {α β : Type _} (f : α → β) (l : List α) :
    ∀ acc : List β, l.foldl (fun r a => r ++ [f a]) acc = acc ++ l.map f := by
  induction l with
  | nil => intro acc; simp
  | cons x xs ih => intro acc; simp [List.foldl_cons, ih]

theorem build_row_eq_map (headers : List String) (data : List (String × Cell)) :
    build_row headers data = (headers.map pyStrip).map (fun hdr => matchValue hdr data) := by
  unfold build_row
  rw [foldl_snoc_map]
  have hlen : ((headers.map pyStrip).map (fun hdr => matchValue hdr data)).length
      = (headers.map pyStrip).length := by simp
  rw [List.nil_append, ← hlen, List.take_length]

theorem getD_map_lt {α β : Type _} (f : α → β) (l : List α) (d : β) (d' : α) :
    ∀ i, i < l.length → (l.map f).getD i d = f (l.getD i d') := by
  induction l with
  | nil => intro i h; simp at h
  | cons x xs ih =>
    intro i h
    cases i with
    | zero => rfl
    | succ n =>
      simp only [List.map_cons, List.getD_cons_succ]
      exact ih n (by simpa using h)

theorem matchValue_append_of_no_match (hdr : String) (data : List (String × Cell))
    (k : String) (v : Cell) (h : pyLower (pyStrip k) ≠ pyLower hdr) :
    matchValue hdr (data ++ [(k, v)]) = matchValue hdr data := by
  induction data with
  | nil => simp [matchValue, List.find?, h]
  | cons kv rest ih =>
    by_cases hkv : pyLower (pyStrip kv.1) = pyLower hdr
    · unfold matchValue
      rw [List.cons_append, List.find?_cons_of_pos _ (by simpa using hkv),
        List.find?_cons_of_pos _ (by simpa using hkv)]
    · unfold matchValue at ih ⊢
      rw [List.cons_append, List.find?_cons_of_neg _ (by simpa using hkv),
        List.find?_cons_of_neg _ (by simpa using hkv)]
      exact ih

theorem buildMatch_eq_nil (cols : List String) (m : List (String × Cell))
    (h : ∀ kv ∈ m, ∀ c ∈ cols, pyLower (pyStrip kv.1) ≠ pyLower c) :
    buildMatch cols m = [] := by
  unfold buildMatch
  suffices haux : ∀ mm : List (String × Cell),
      (∀ kv ∈ mm, ∀ c ∈ cols, pyLower (pyStrip kv.1) ≠ pyLower c) →
      ∀ acc : List (String × Cell),
        mm.foldl
          (fun acc kv =>
            match cols.find? (fun hh => pyLower (pyStrip kv.1) = pyLower hh) with
            | some hh => assocSet acc hh kv.2
            | none => acc) acc = acc by
    exact haux m h []
  intro mm
  induction mm with
  | nil => intro _ acc; rfl
  | cons kv rest ih =>
    intro hmm acc
    have hfind : cols.find? (fun hh => pyLower (pyStrip kv.1) = pyLower hh) = none := by
      rw [List.find?_eq_none]
      intro c hc
      simpa using hmm kv (by simp) c hc
    rw [List.foldl_cons]
    have hstep :
        (match cols.find? (fun hh => pyLower (pyStrip kv.1) = pyLower hh) with
          | some hh => assocSet acc hh kv.2
          | none => acc) = acc := by
      rw [hfind]
    rw [hstep]
    exact ih (fun kv' hkv' c hc => hmm kv' (by simp [hkv']) c hc) acc

theorem cellEq_getCell_false_of_absent (r : List Cell) (i : ℕ) (item : String)
    (h : ∀ c ∈ r, cellEqStr c item = false) (hne : item ≠ "") :
    cellEqStr (getCell r i) item = false := by
  rcases getD_mem_or r (Cell.str "") i with hD | hM
  · have hns : ("" : String) ≠ item := fun hh => hne hh.symm
    unfold getCell
    rw [hD]
    simp [cellEqStr, hns]
  · unfold getCell
    exact h _ hM

theorem applySaleStock_of_absent (inv : Worksheet) (item : String) (qty : ℤ)
    (hne : item ≠ "")
    (habs : ∀ r ∈ inv.rows, ∀ c ∈ r, cellEqStr c item = false) :
    applySaleStock inv item qty = inv := by
  unfold applySaleStock
  cases h1 : inv.rows.isEmpty
  · cases h2 : (normHeaders inv).contains "Stock"
    · simp [h1, h2]
    · rcases h3 : scanIdx (fun h => h = saleItemCol (normHeaders inv)) (normHeaders inv) 0
        with _ | ici
      · simp [h1, h2, h3]
      · rcases h4 : scanIdx (fun h => h = "Stock") (normHeaders inv) 0 with _ | sci
        · simp [h1, h2, h3, h4]
        · have h5 : scanIdx (fun r => cellEqStr (getCell r ici) item) inv.rows 0 = none :=
            scanIdx_none_of_all _ _ 0
              (fun r hr => cellEq_getCell_false_of_absent r ici item (habs r hr) hne)
          simp [h1, h2, h3, h4, h5]
  · simp [h1]

theorem purchaseItemExists_false_of_absent (inv : Worksheet) (item : String)
    (hne : item ≠ "")
    (habs : ∀ r ∈ inv.rows, ∀ c ∈ r, cellEqStr c item = false) :
    purchaseItemExists inv item = false := by
  unfold purchaseItemExists
  cases h1 : inv.rows.isEmpty
  · cases h2 : (normHeaders inv).contains "Item Name"
    · simp [h1, h2]
    · rcases h3 : scanIdx (fun h => h = "Item Name") (normHeaders inv) 0 with _ | ici
      · simp [h1, h2, h3]
      · have hany : inv.rows.any (fun r => cellEqStr (getCell r ici) item) = false := by
          rw [List.any_eq_false]
          intro r hr
          simp [cellEq_getCell_false_of_absent r ici item (habs r hr) hne]
        simp [h1, h2, h3, hany]
  · simp [h1]

theorem locateRow_some_lt (ws : Worksheet) (m : List (String × Cell)) (k : ℕ)
    (h : locateRow ws m = some k) : k < ws.rows.length := by
  unfold locateRow at h
  by_cases he : ws.rows.isEmpty
  · simp [he] at h
  · simp only [he, if_false] at h
    have := scanIdx_some_bound _ ws.rows 0 k h
    omega

theorem find_and_delete_success (ws : Worksheet) (m : List (String × Cell))
    (h : (find_and_delete_row ws m).1 = true) :
    (find_and_delete_row ws m).2.headers = ws.headers ∧
    (find_and_delete_row ws m).2.rows.length + 1 = ws.rows.length := by
  unfold find_and_delete_row at h ⊢
  split at h
  next k heq =>
    exact ⟨rfl, length_eraseAt ws.rows k (locateRow_some_lt ws m k heq)⟩
  next heq =>
    simp at h

/-! ### Claim theorems -/

/-- C1 counterexample: in the Pen scenario (stock 10, sale of 3 recorded so
stock becomes 7), deleting that sale through the locate-and-delete handler
succeeds but leaves the stock at 7 - it is not restored to 10, refuting the
claim at this concrete input. -/
theorem pen_sale_delete_does_not_restore_stock :
    invStockCell penStart = Cell.int 10 ∧
    invStockCell penAfterSale = Cell.int 7 ∧
    (deleteSaleRecord penAfterSale 0).1 = true ∧
    invStockCell penAfterDelete = Cell.int 7 ∧
    invStockCell penAfterDelete ≠ Cell.int 10 := by decide

/-- C1 amended: deleting the sale transaction via the locate-and-delete
handler removes the sale row but performs no reverse-ledger update, so the
item's stock stays at its post-transaction value (7), not its
pre-transaction value (10); the inventory sheet is untouched by the
delete. -/
theorem pen_sale_delete_keeps_post_sale_stock :
    invStockCell penAfterSale = Cell.int 7 ∧
    penAfterDelete.sales.rows = [] ∧
    penAfterDelete.inventory = penAfterSale.inventory ∧
    invStockCell penAfterDelete = Cell.int 7 := by decide

/-- C2 counterexample: "qty" is a listed synonym of the canonical field
Quantity, but the code's normalization (strip().title()) maps it to "Qty",
not to "Quantity". -/
theorem normalizeHeader_qty_not_quantity :
    normalizeHeader "qty" = "Qty" ∧ ("Qty" : String) ≠ "Quantity" := by decide

/-- C2 amended: normalize maps a raw header to its whitespace-trimmed,
title-cased form; a listed synonym reaches its canonical field only when it
differs from the canonical spelling solely by casing or surrounding
whitespace, while differently-spelled synonyms keep their own spelling; and
normalize is idempotent on the canonical headers. -/
theorem normalizeHeader_trim_titlecase :
    (normalizeHeader "Item" = "Item" ∧ normalizeHeader "Quantity" = "Quantity" ∧
      normalizeHeader "Sell Price" = "Sell Price" ∧
      normalizeHeader "Buy Price" = "Buy Price" ∧
      normalizeHeader "Total" = "Total" ∧ normalizeHeader "Date" = "Date") ∧
    (normalizeHeader "  iTeM " = "Item" ∧ normalizeHeader "SELL PRICE" = "Sell Price" ∧
      normalizeHeader " date" = "Date" ∧ normalizeHeader "qUaNtItY" = "Quantity") ∧
    (normalizeHeader "qty" = "Qty" ∧ normalizeHeader "unitssold" = "Unitssold" ∧
      normalizeHeader "sellingprice" = "Sellingprice") := by decide

/-- C3: a purchase of quantity q at unit buy price b for an item name
appearing nowhere in the inventory appends a new inventory record
[item, b, round(b * 1.2, 2), q] (buy price b, sell price round(b*1.2, 2),
stock q), per src/app.py lines 320-327. -/
theorem applyPurchase_new_item (inv : Worksheet) (item : String) (qty : ℤ) (b : ℚ)
    (hne : item ≠ "")
    (habs : ∀ r ∈ inv.rows, ∀ c ∈ r, cellEqStr c item = false) :
    applyPurchase inv item qty b =
      { inv with rows := inv.rows ++
          [[Cell.str item, Cell.rat b, Cell.rat (pyRound2 (b * (6 / 5))), Cell.int qty]] } := by
  have hex : purchaseItemExists inv item = false :=
    purchaseItemExists_false_of_absent inv item hne habs
  unfold applyPurchase
  simp [hex]

/-- C3 witness: purchasing 5 Notebooks at buy price 20 into an empty
inventory creates the record [Notebook, 20, round(24), 5]. -/
theorem applyPurchase_new_item_witness :
    applyPurchase emptyInventory "Notebook" 5 20 =
      { emptyInventory with rows := emptyInventory.rows ++
          [[Cell.str "Notebook", Cell.rat 20, Cell.rat (pyRound2 (20 * (6 / 5))),
            Cell.int 5]] } :=
  applyPurchase_new_item emptyInventory "Notebook" 5 20 (by decide) (by decide)

/-- C4: when the Record Sale stock update finds the item (first matching
row ri, stock column sci holding integer s), it writes
max(0, s - qty) into the stock cell, so a sale never drives stock below
zero (src/app.py lines 244-253). -/
theorem applySaleStock_clamps (inv : Worksheet) (item : String) (qty : ℤ)
    (ici sci ri : ℕ) (s : ℤ)
    (h1 : inv.rows.isEmpty = false)
    (h2 : (normHeaders inv).contains "Stock" = true)
    (h3 : scanIdx (fun h => h = saleItemCol (normHeaders inv)) (normHeaders inv) 0 = some ici)
    (h4 : scanIdx (fun h => h = "Stock") (normHeaders inv) 0 = some sci)
    (h5 : scanIdx (fun r => cellEqStr (getCell r ici) item) inv.rows 0 = some ri)
    (h6 : Cell.toInt (getCell (inv.rows.getD ri []) sci) = some s)
    (h7 : sci < (inv.rows.getD ri []).length) :
    applySaleStock inv item qty = wsSetCell inv ri sci (Cell.int (max 0 (s - qty))) ∧
    getCell ((applySaleStock inv item qty).rows.getD ri []) sci =
      Cell.int (max 0 (s - qty)) ∧
    0 ≤ max 0 (s - qty) := by
  have hri : ri < inv.rows.length := by
    have := scanIdx_some_bound _ inv.rows 0 ri h5
    omega
  have heq : applySaleStock inv item qty = wsSetCell inv ri sci (Cell.int (max 0 (s - qty))) := by
    have h2m : "Stock" ∈ normHeaders inv := by simpa using h2
    have h6m := h6
    simp only [List.getD_eq_getElem?_getD] at h6m
    unfold applySaleStock
    simp [h1, h2m, h3, h4, h5, h6m]
  refine ⟨heq, ?_, le_max_left 0 (s - qty)⟩
  rw [heq]
  show ((setAt inv.rows ri (setAt (inv.rows.getD ri []) sci (Cell.int (max 0 (s - qty))))).getD
      ri []).getD sci (Cell.str "") = Cell.int (max 0 (s - qty))
  rw [getD_setAt_self inv.rows _ [] ri hri, getD_setAt_self _ _ _ sci h7]

/-- C4 witness: selling 12 Pens against stock 10 clamps the stock cell to
max(0, 10 - 12) = 0. -/
theorem applySaleStock_clamps_witness :
    applySaleStock penInventory "Pen" 12 =
      wsSetCell penInventory 0 3 (Cell.int (max 0 (10 - 12))) ∧
    getCell ((applySaleStock penInventory "Pen" 12).rows.getD 0 []) 3 =
      Cell.int (max 0 (10 - 12)) ∧
    (0 : ℤ) ≤ max 0 (10 - 12) :=
  applySaleStock_clamps penInventory "Pen" 12 0 3 0 10 (by decide) (by decide) (by decide)
    (by decide) (by decide) (by decide) (by decide)

/-- C5: build_row output length equals the header count; each position holds
the value of the first field whose name equals that header under trimmed
case-insensitive comparison (empty when none matches); and a supplied field
matching no header is dropped without shifting any column
(src/app.py lines 65-87). -/
theorem build_row_length_and_lookup (headers : List String) (data : List (String × Cell)) :
    (build_row headers data).length = headers.length ∧
    (∀ i, i < headers.length →
      (build_row headers data).getD i (Cell.str "") =
        matchValue (pyStrip (headers.getD i "")) data) ∧
    (∀ k v, (∀ h ∈ headers, pyLower (pyStrip k) ≠ pyLower (pyStrip h)) →
      build_row headers (data ++ [(k, v)]) = build_row headers data) := by
  refine ⟨?_, ?_, ?_⟩
  · rw [build_row_eq_map]; simp
  · intro i hi
    rw [build_row_eq_map]
    rw [getD_map_lt (fun hdr => matchValue hdr data) (headers.map pyStrip) (Cell.str "") "" i
      (by simpa using hi)]
    rw [getD_map_lt pyStrip headers "" "" i hi]
  · intro k v hk
    rw [build_row_eq_map, build_row_eq_map]
    apply List.map_congr_left
    intro hdr hmem
    obtain ⟨h0, hh0, rfl⟩ := List.mem_map.mp hmem
    exact matchValue_append_of_no_match _ data k v (hk h0 hh0)

/-- C5 witness: adding a field matching no header of [Date, Item Name]
leaves the built row unchanged. -/
theorem build_row_length_and_lookup_witness :
    build_row ["Date", "Item Name"]
        ([("item name", Cell.str "Pen")] ++ [("Bogus", Cell.str "x")]) =
      build_row ["Date", "Item Name"] [("item name", Cell.str "Pen")] :=
  (build_row_length_and_lookup ["Date", "Item Name"] [("item name", Cell.str "Pen")]).2.2
    "Bogus" (Cell.str "x") (by decide)

/-- C6: a purchase against an existing inventory item (first matching row
ri, stock column sci holding integer s) rewrites only that stock cell to
s + qty: headers, every other row, and every other cell of row ri -
including buy price and sell price - are unchanged
(src/app.py lines 311-319). -/
theorem applyPurchase_existing_frame (inv : Worksheet) (item : String) (qty : ℤ) (b : ℚ)
    (ici sci ri : ℕ) (s : ℤ)
    (hex : purchaseItemExists inv item = true)
    (hici : scanIdx (fun h => h = "Item Name") (normHeaders inv) 0 = some ici)
    (hri : scanIdx (fun r => cellEqStr (getCell r ici) item) inv.rows 0 = some ri)
    (hst : (normHeaders inv).contains "Stock" = true)
    (hsci : scanIdx (fun h => h = "Stock") (normHeaders inv) 0 = some sci)
    (hs : Cell.toInt (getCell (inv.rows.getD ri []) sci) = some s)
    (hlt : sci < (inv.rows.getD ri []).length) :
    applyPurchase inv item qty b = wsSetCell inv ri sci (Cell.int (s + qty)) ∧
    (applyPurchase inv item qty b).headers = inv.headers ∧
    (applyPurchase inv item qty b).rows.length = inv.rows.length ∧
    (∀ j, j ≠ ri → (applyPurchase inv item qty b).rows.getD j [] = inv.rows.getD j []) ∧
    (∀ c, c ≠ sci →
      getCell ((applyPurchase inv item qty b).rows.getD ri []) c =
        getCell (inv.rows.getD ri []) c) ∧
    getCell ((applyPurchase inv item qty b).rows.getD ri []) sci = Cell.int (s + qty) := by
  have hrilt : ri < inv.rows.length := by
    have := scanIdx_some_bound _ inv.rows 0 ri hri
    omega
  have heq : applyPurchase inv item qty b = wsSetCell inv ri sci (Cell.int (s + qty)) := by
    have hstm : "Stock" ∈ normHeaders inv := by simpa using hst
    have hsm := hs
    simp only [List.getD_eq_getElem?_getD] at hsm
    unfold applyPurchase
    simp [hex, hici, hri, hstm, hsci, hsm]
  refine ⟨heq, ?_, ?_, ?_, ?_, ?_⟩
  · rw [heq]; rfl
  · rw [heq]
    show (setAt inv.rows ri _).length = inv.rows.length
    exact length_setAt inv.rows _ ri
  · intro j hj
    rw [heq]
    show (setAt inv.rows ri _).getD j [] = inv.rows.getD j []
    exact getD_setAt_ne inv.rows _ [] ri j (fun hh => hj hh.symm)
  · intro c hc
    rw [heq]
    show ((setAt inv.rows ri (setAt (inv.rows.getD ri []) sci (Cell.int (s + qty)))).getD
        ri []).getD c (Cell.str "") = (inv.rows.getD ri []).getD c (Cell.str "")
    rw [getD_setAt_self inv.rows _ [] ri hrilt]
    exact getD_setAt_ne _ _ _ sci c (fun hh => hc hh.symm)
  · rw [heq]
    show ((setAt inv.rows ri (setAt (inv.rows.getD ri []) sci (Cell.int (s + qty)))).getD
        ri []).getD sci (Cell.str "") = Cell.int (s + qty)
    rw [getD_setAt_self inv.rows _ [] ri hrilt, getD_setAt_self _ _ _ sci hlt]

/-- C6 witness: purchasing 4 more Pens (any buy price, here 7/2) raises the
stock cell from 10 to 10 + 4 and leaves the sell price cell (column 2)
unchanged. -/
theorem applyPurchase_existing_frame_witness :
    applyPurchase penInventory "Pen" 4 (7 / 2) =
      wsSetCell penInventory 0 3 (Cell.int (10 + 4)) ∧
    getCell ((applyPurchase penInventory "Pen" 4 (7 / 2)).rows.getD 0 []) 2 =
      getCell (penInventory.rows.getD 0 []) 2 := by
  have h := applyPurchase_existing_frame penInventory "Pen" 4 (7 / 2) 0 3 0 10 (by decide)
    (by decide) (by decide) (by decide) (by decide) (by decide) (by decide)
  exact ⟨h.1, h.2.2.2.2.1 2 (by decide)⟩

/-- C7 (code bug evidence): on a sheet with headers [Date, Item Name] and
the single row [2024-01-01, Pen], the criteria {Item Name: Pen, Date: ""}
locate nothing, although the row satisfies every non-empty criterion - the
code compares empty-valued criteria too, contradicting its own docstring
("matches all non-empty values in match_dict") and the claimed contract. -/
theorem locateRow_rejects_on_empty_criterion :
    locateRow oneSaleSheet emptyDateCriteria = none ∧
    rowMatchesNonEmpty (normHeaders oneSaleSheet)
      (buildMatch (normHeaders oneSaleSheet) emptyDateCriteria)
      (oneSaleSheet.rows.getD 0 []) = true := by decide

/-- C8 counterexample: recording a sale of the unknown item "Ghost" does not
fail and does not leave state unchanged - the sale row is appended to the
Sales sheet (its row count grows from 0 to 1) and the handler has no
ItemNotFound path. -/
theorem recordSale_unknown_item_changes_state :
    (recordSale penStart "2024-01-02" "Ghost" 1 (Cell.int 9)).sales.rows.length =
      penStart.sales.rows.length + 1 ∧
    recordSale penStart "2024-01-02" "Ghost" 1 (Cell.int 9) ≠ penStart := by decide

/-- C8 amended: a sale referencing an item name appearing nowhere in the
inventory is not rejected: the handler appends the sale transaction row
unconditionally, leaves the inventory (and purchases) unchanged, and raises
no ItemNotFound error (src/app.py lines 236-254: the failed stock lookup is
swallowed by the except-pass). -/
theorem recordSale_unknown_item_appends (st : AppState) (d item : String) (q : ℤ) (p : Cell)
    (hne : item ≠ "")
    (habs : ∀ r ∈ st.inventory.rows, ∀ c ∈ r, cellEqStr c item = false) :
    (recordSale st d item q p).sales.rows =
      st.sales.rows ++ [build_row st.sales.headers
        [("Date", Cell.str d), ("Item Name", Cell.str item),
          ("Units Sold", Cell.int q), ("Selling Price", p)]] ∧
    (recordSale st d item q p).inventory = st.inventory ∧
    (recordSale st d item q p).purchases = st.purchases := by
  refine ⟨rfl, ?_, rfl⟩
  show applySaleStock st.inventory item q = st.inventory
  exact applySaleStock_of_absent st.inventory item q hne habs

/-- C8 witness: the amended behavior at the concrete Ghost sale. -/
theorem recordSale_unknown_item_appends_witness :
    (recordSale penStart "2024-01-02" "Ghost" 1 (Cell.int 9)).sales.rows =
      penStart.sales.rows ++ [build_row penStart.sales.headers
        [("Date", Cell.str "2024-01-02"), ("Item Name", Cell.str "Ghost"),
          ("Units Sold", Cell.int 1), ("Selling Price", Cell.int 9)]] ∧
    (recordSale penStart "2024-01-02" "Ghost" 1 (Cell.int 9)).inventory =
      penStart.inventory ∧
    (recordSale penStart "2024-01-02" "Ghost" 1 (Cell.int 9)).purchases =
      penStart.purchases :=
  recordSale_unknown_item_appends penStart "2024-01-02" "Ghost" 1 (Cell.int 9) (by decide)
    (by decide)

/-- C9: on a worksheet with at least one data row, when no key of the match
dict equals any (normalized) worksheet header under trimmed case-insensitive
comparison, the effective criteria set is empty, the first data row matches
vacuously, and find_and_delete_row deletes it and reports success
(src/app.py lines 100-125). -/
theorem find_and_delete_vacuous_match (ws : Worksheet) (m : List (String × Cell))
    (r : List Cell) (rs : List (List Cell))
    (hrows : ws.rows = r :: rs)
    (hkeys : ∀ kv ∈ m, ∀ h ∈ normHeaders ws, pyLower (pyStrip kv.1) ≠ pyLower h) :
    find_and_delete_row ws m = (true, { ws with rows := rs }) := by
  have hmatch : buildMatch (normHeaders ws) m = [] := buildMatch_eq_nil _ _ hkeys
  have hloc : locateRow ws m = some 0 := by
    unfold locateRow
    rw [hrows, hmatch]
    simp [scanIdx, rowMatches]
  unfold find_and_delete_row
  rw [hloc, hrows]
  rfl

/-- C9 witness: a match dict whose single key "Bogus" matches no header of
[Date, Item] deletes the first of the two stored rows. -/
theorem find_and_delete_vacuous_match_witness :
    find_and_delete_row twoRowSheet [("Bogus", Cell.str "zz")] =
      (true, { twoRowSheet with rows := [[Cell.str "2024-01-02", Cell.str "Ink"]] }) :=
  find_and_delete_vacuous_match twoRowSheet [("Bogus", Cell.str "zz")]
    [Cell.str "2024-01-01", Cell.str "Pen"] [[Cell.str "2024-01-02", Cell.str "Ink"]]
    (by decide) (by decide)

/-- C10: a successful delete of a sale (or purchase) record removes exactly
one row from the Sales (resp. Purchases) sheet and leaves the inventory -
and the other transaction sheet - entirely unchanged: no stock reversal
happens on the delete path (src/app.py lines 89-125, 269-282, 341-353). -/
theorem delete_handlers_touch_only_target (st : AppState) (i j : ℕ)
    (hs : (deleteSaleRecord st i).1 = true)
    (hp : (deletePurchaseRecord st j).1 = true) :
    ((deleteSaleRecord st i).2.inventory = st.inventory ∧
      (deleteSaleRecord st i).2.purchases = st.purchases ∧
      (deleteSaleRecord st i).2.sales.headers = st.sales.headers ∧
      (deleteSaleRecord st i).2.sales.rows.length + 1 = st.sales.rows.length) ∧
    ((deletePurchaseRecord st j).2.inventory = st.inventory ∧
      (deletePurchaseRecord st j).2.sales = st.sales ∧
      (deletePurchaseRecord st j).2.purchases.headers = st.purchases.headers ∧
      (deletePurchaseRecord st j).2.purchases.rows.length + 1 = st.purchases.rows.length) := by
  have h1 := find_and_delete_success st.sales (saleMatchDict st.sales i) hs
  have h2 := find_and_delete_success st.purchases (purchaseMatchDict st.purchases j) hp
  exact ⟨⟨rfl, rfl, h1.1, h1.2⟩, ⟨rfl, rfl, h2.1, h2.2⟩⟩

/-- C10 witness: in a state holding one recorded sale and one recorded
purchase, both delete handlers succeed, each removing exactly one row of its
own sheet and leaving the inventory untouched. -/
theorem delete_handlers_touch_only_target_witness :
    ((deleteSaleRecord bothState 0).2.inventory = bothState.inventory ∧
      (deleteSaleRecord bothState 0).2.purchases = bothState.purchases ∧
      (deleteSaleRecord bothState 0).2.sales.headers = bothState.sales.headers ∧
      (deleteSaleRecord bothState 0).2.sales.rows.length + 1 =
        bothState.sales.rows.length) ∧
    ((deletePurchaseRecord bothState 0).2.inventory = bothState.inventory ∧
      (deletePurchaseRecord bothState 0).2.sales = bothState.sales ∧
      (deletePurchaseRecord bothState 0).2.purchases.headers =
        bothState.purchases.headers ∧
      (deletePurchaseRecord bothState 0).2.purchases.rows.length + 1 =
        bothState.purchases.rows.length) :=
  delete_handlers_touch_only_target bothState 0 0 (by decide) (by decide)
